import Mathlib

/-!
Verification of the Quant Enthusiasts Risk Engine specification.

The repository ships a thin FastAPI layer (`python_api/app.py`) over a native
module `quant_risk_engine` whose source is not part of the repository.  The
engine (data model, Black-Scholes pricer, portfolio aggregation, VaR
estimator) is therefore modelled from the specification; the HTTP boundary is
embedded from `app.py` directly.
-/

open MeasureTheory Set

namespace QuantRiskEngine

/-- Modelled from the spec: the `OptionType` enumeration {Call, Put} of the
missing `quant_risk_engine` module. -/
inductive OptionType
  | Call
  | Put
deriving DecidableEq

/-- Modelled from the spec: the `EuropeanOption` instrument value object of
the missing `quant_risk_engine` module. -/
structure EuropeanOption where
  option_type : OptionType
  strike : ℝ
  time_to_expiry : ℝ
  underlying_asset_id : String

/-- Modelled from the spec: the `MarketData` record of the missing
`quant_risk_engine` module. -/
structure MarketData where
  asset_id : String
  spot_price : ℝ
  risk_free_rate : ℝ
  volatility : ℝ

/-- Modelled from the spec: a `PortfolioPosition`, an instrument together with
a signed integer quantity. -/
structure PortfolioPosition where
  instrument : EuropeanOption
  quantity : ℤ

/-- Modelled from the spec: a `Portfolio` is an ordered sequence of positions. -/
abbrev Portfolio : Type := List PortfolioPosition

/-- Modelled from the spec: the `MarketDataStore`, a lookup table from asset
identifier to market data. -/
abbrev MarketDataStore : Type := String → Option MarketData

/-- Modelled from the spec: the per-unit pricer output {pv, delta, gamma,
vega, theta}. -/
structure PriceResult where
  pv : ℝ
  delta : ℝ
  gamma : ℝ
  vega : ℝ
  theta : ℝ

/-- Modelled from the spec: the `RiskResult` record returned by
`calculate_portfolio_risk`. -/
structure RiskResult where
  total_pv : ℝ
  total_delta : ℝ
  total_gamma : ℝ
  total_vega : ℝ
  total_theta : ℝ
  value_at_risk_95 : ℝ

/-- Modelled from the spec: the error taxonomy of the missing engine. -/
inductive RiskError
  | InvalidInstrumentError
  | InvalidMarketDataError
  | MissingMarketDataError (asset_id : String)
deriving DecidableEq

/-- Standard normal density numerator: the unnormalised Gaussian kernel. -/
noncomputable def stdGaussKernel (t : ℝ) : ℝ := Real.exp (-(t ^ 2) / 2)

/-- Standard normal probability density function. -/
noncomputable def normPdf (x : ℝ) : ℝ := stdGaussKernel x / Real.sqrt (2 * Real.pi)

/-- Standard normal cumulative distribution function, as the Gaussian
integral over `Iic x` (the erf-based double-precision CDF required by the
spec denotes exactly this function). -/
noncomputable def normCdf (x : ℝ) : ℝ :=
  (∫ t in Iic x, stdGaussKernel t) / Real.sqrt (2 * Real.pi)

/-- Modelled from the spec: the volatility floor named constant of the
missing pricer (degenerate case sigma <= 0). -/
noncomputable def VOL_FLOOR : ℝ := 1 / 1000000

/-- Modelled from the spec: the effective volatility, with sigma <= 0
replaced by the small positive floor. -/
noncomputable def effVol (σ : ℝ) : ℝ := if σ ≤ 0 then VOL_FLOOR else σ

/-- Modelled from the spec: the Black-Scholes d1 term. -/
noncomputable def bsD1 (S K r σ τ : ℝ) : ℝ :=
  (Real.log (S / K) + (r + σ ^ 2 / 2) * τ) / (σ * Real.sqrt τ)

/-- Modelled from the spec: the Black-Scholes d2 term, d1 minus sigma times
the square root of tau. -/
noncomputable def bsD2 (S K r σ τ : ℝ) : ℝ := bsD1 S K r σ τ - σ * Real.sqrt τ

/-- Modelled from the spec: per-unit Call value and sensitivities in the
normal (non-degenerate) Black-Scholes regime. -/
noncomputable def callPrice (S K r σ τ : ℝ) : PriceResult :=
  ⟨S * normCdf (bsD1 S K r σ τ) -
     K * Real.exp (-r * τ) * normCdf (bsD2 S K r σ τ),
   normCdf (bsD1 S K r σ τ),
   normPdf (bsD1 S K r σ τ) / (S * σ * Real.sqrt τ),
   S * normPdf (bsD1 S K r σ τ) * Real.sqrt τ,
   -(S * normPdf (bsD1 S K r σ τ) * σ) / (2 * Real.sqrt τ) -
     r * K * Real.exp (-r * τ) * normCdf (bsD2 S K r σ τ)⟩

/-- Modelled from the spec: per-unit Put value and sensitivities in the
normal (non-degenerate) Black-Scholes regime. -/
noncomputable def putPrice (S K r σ τ : ℝ) : PriceResult :=
  ⟨K * Real.exp (-r * τ) * normCdf (-bsD2 S K r σ τ) -
     S * normCdf (-bsD1 S K r σ τ),
   normCdf (bsD1 S K r σ τ) - 1,
   normPdf (bsD1 S K r σ τ) / (S * σ * Real.sqrt τ),
   S * normPdf (bsD1 S K r σ τ) * Real.sqrt τ,
   -(S * normPdf (bsD1 S K r σ τ) * σ) / (2 * Real.sqrt τ) +
     r * K * Real.exp (-r * τ) * normCdf (-bsD2 S K r σ τ)⟩

/-- Modelled from the spec: `OptionPricer.price`, the Black-Scholes-Merton
closed form with no dividend yield, including the degenerate expired branch
(tau <= 0), the volatility floor, and the `InvalidInstrumentError` /
`InvalidMarketDataError` guards of the missing `quant_risk_engine` module. -/
noncomputable def price (o : EuropeanOption) (m : MarketData) :
    Except RiskError PriceResult :=
  if o.strike ≤ 0 then .error .InvalidInstrumentError
  else if m.spot_price ≤ 0 then .error .InvalidMarketDataError
  else if o.time_to_expiry ≤ 0 then
    match o.option_type with
    | .Call =>
        .ok ⟨max (m.spot_price - o.strike) 0,
             if o.strike < m.spot_price then 1 else 0, 0, 0, 0⟩
    | .Put =>
        .ok ⟨max (o.strike - m.spot_price) 0,
             if m.spot_price < o.strike then -1 else 0, 0, 0, 0⟩
  else
    match o.option_type with
    | .Call =>
        .ok (callPrice m.spot_price o.strike m.risk_free_rate
              (effVol m.volatility) o.time_to_expiry)
    | .Put =>
        .ok (putPrice m.spot_price o.strike m.risk_free_rate
              (effVol m.volatility) o.time_to_expiry)

/-- Running totals of PV and the four Greeks during aggregation. -/
structure AggTotals where
  pv : ℝ
  delta : ℝ
  gamma : ℝ
  vega : ℝ
  theta : ℝ

/-- Aggregation output: the totals plus, for the VaR estimator, one
(asset identifier, quantity-scaled delta) entry per position. -/
structure AggOut where
  totals : AggTotals
  deltaContribs : List (String × ℝ)

/-- Modelled from the spec: `PortfolioAggregator.aggregate` of the missing
engine.  For each position in order: look up market data by asset id (absent
means `MissingMarketDataError{asset_id}` aborting the whole calculation),
price the instrument, scale each output by the signed quantity and add into
the running totals; the first error aborts everything. -/
noncomputable def aggregate (store : MarketDataStore) :
    Portfolio → Except RiskError AggOut
  | [] => .ok ⟨⟨0, 0, 0, 0, 0⟩, []⟩
  | pos :: rest =>
    match store pos.instrument.underlying_asset_id with
    | none => .error (.MissingMarketDataError pos.instrument.underlying_asset_id)
    | some md =>
      match price pos.instrument md with
      | .error e => .error e
      | .ok pr =>
        match aggregate store rest with
        | .error e => .error e
        | .ok out =>
            .ok ⟨⟨(pos.quantity : ℝ) * pr.pv + out.totals.pv,
                  (pos.quantity : ℝ) * pr.delta + out.totals.delta,
                  (pos.quantity : ℝ) * pr.gamma + out.totals.gamma,
                  (pos.quantity : ℝ) * pr.vega + out.totals.vega,
                  (pos.quantity : ℝ) * pr.theta + out.totals.theta⟩,
                 (pos.instrument.underlying_asset_id,
                  (pos.quantity : ℝ) * pr.delta) :: out.deltaContribs⟩

/-- Modelled from the spec: annualized volatility converted to daily via
division by the square root of 252. -/
noncomputable def dailyVol (σ : ℝ) : ℝ := σ / Real.sqrt 252

/-- Modelled from the spec: per-asset one-day P&L standard deviation, the
absolute dollar-delta of the asset (sum of delta contributions of positions
on the asset, times its spot price) times its daily volatility. -/
noncomputable def assetStd (store : MarketDataStore)
    (contribs : List (String × ℝ)) (a : String) : ℝ :=
  match store a with
  | none => 0
  | some md =>
      |((contribs.filter (fun c => c.1 = a)).map Prod.snd).sum * md.spot_price| *
        dailyVol md.volatility

/-- Modelled from the spec: `VaREstimator.estimate`, parametric delta-normal
one-day 95% VaR: 1.645 times the square root of the sum over assets of the
squared per-asset standard deviations (assets modelled as independent). -/
noncomputable def estimateVaR (store : MarketDataStore)
    (contribs : List (String × ℝ)) : ℝ :=
  1.645 * Real.sqrt
    ((((contribs.map Prod.fst).dedup).map
        (fun a => assetStd store contribs a ^ 2)).sum)

/-- Modelled from the spec: the `RiskEngine.calculate_portfolio_risk` facade,
sequencing aggregation then VaR estimation and merging the VaR scalar into
the `RiskResult`; any aggregation error passes through unchanged. -/
noncomputable def calculate_portfolio_risk (p : Portfolio)
    (store : MarketDataStore) : Except RiskError RiskResult :=
  match aggregate store p with
  | .error e => .error e
  | .ok out =>
      .ok ⟨out.totals.pv, out.totals.delta, out.totals.gamma,
           out.totals.vega, out.totals.theta,
           estimateVaR store out.deltaContribs⟩

end QuantRiskEngine

namespace PythonApi

open QuantRiskEngine

/-- One portfolio entry of the HTTP request body, from `PortfolioItem` in
`python_api/app.py` (the `type` field arrives as a raw string that pydantic
validates against the literal set). -/
structure PortfolioItem where
  type : String
  strike : ℝ
  expiry : ℝ
  asset_id : String
  quantity : ℤ

/-- One market-data entry of the HTTP request body, from `MarketDataItem` in
`python_api/app.py`. -/
structure MarketDataItem where
  spot : ℝ
  rate : ℝ
  vol : ℝ

/-- The HTTP request body, from `CalculateRequest` in `python_api/app.py`;
the python `Dict` is embedded as an association list with unique keys. -/
structure CalculateRequest where
  portfolio : List PortfolioItem
  market_data : List (String × MarketDataItem)

/-- Pydantic validation of the `type` field in `python_api/app.py` line 10:
`Literal` accepts exactly the strings of the literal set, by equality. -/
def typeFieldValid (s : String) : Bool := s == "call" || s == "put"

/-- Pydantic validation of a whole request: every portfolio item must pass
the `Literal` check on its `type` field (`python_api/app.py` line 10). -/
def requestValid (req : CalculateRequest) : Bool :=
  req.portfolio.all (fun it => typeFieldValid it.type)

/-- ASCII lowercasing of a string, character by character: the behaviour of
the python `str.lower()` method on the ASCII inputs relevant here. -/
def pyLower (s : String) : String := ⟨s.data.map Char.toLower⟩

/-- The option-type mapping of `python_api/app.py` line 45:
`OptionType.Call if item.type.lower() == "call" else OptionType.Put`. -/
def parseOptionType (s : String) : OptionType :=
  if pyLower s == "call" then .Call else .Put

/-- The portfolio construction loop of `python_api/app.py` lines 43-52. -/
def buildPortfolio (items : List PortfolioItem) : Portfolio :=
  items.map (fun it =>
    ⟨⟨parseOptionType it.type, it.strike, it.expiry, it.asset_id⟩, it.quantity⟩)

/-- The market-data conversion loop of `python_api/app.py` lines 54-61,
yielding the mapping handed to the engine. -/
def buildStore (entries : List (String × MarketDataItem)) : MarketDataStore :=
  fun a =>
    (entries.lookup a).map (fun md => ⟨a, md.spot, md.rate, md.vol⟩)

/-- The human-readable message of an engine error, the `str(e)` of
`python_api/app.py` line 78. -/
def errMessage : RiskError → String
  | .InvalidInstrumentError => "Invalid instrument"
  | .InvalidMarketDataError => "Invalid market data"
  | .MissingMarketDataError a => "Missing market data for asset: " ++ a

/-- Outcome of the `/calculate_risk` handler: a successful JSON body or an
`HTTPException` with a status code and a detail string. -/
inductive ApiOutcome
  | success (r : RiskResult)
  | httpError (status : ℕ) (detail : String)

/-- The `/calculate_risk` handler of `python_api/app.py` lines 38-78: build
the portfolio and market-data map, call the engine, and map any exception of
the try block to HTTP 500 with the exception message as detail. -/
noncomputable def calculate_risk (req : CalculateRequest) : ApiOutcome :=
  match calculate_portfolio_risk (buildPortfolio req.portfolio)
      (buildStore req.market_data) with
  | .ok r => .success r
  | .error e => .httpError 500 (errMessage e)

end PythonApi

namespace QuantRiskEngine

lemma stdGaussKernel_neg (t : ℝ) : stdGaussKernel (-t) = stdGaussKernel t := by
  simp [stdGaussKernel, neg_sq]

lemma integrable_stdGaussKernel : Integrable stdGaussKernel := by
  have h := integrable_exp_neg_mul_sq (show (0 : ℝ) < 1 / 2 by norm_num)
  have hfun : (fun x : ℝ => Real.exp (-(1 / 2) * x ^ 2)) = stdGaussKernel := by
    funext x
    simp only [stdGaussKernel]
    ring_nf
  rwa [hfun] at h

lemma integral_stdGaussKernel : (∫ t : ℝ, stdGaussKernel t) = Real.sqrt (2 * Real.pi) := by
  have h := integral_gaussian (1 / 2 : ℝ)
  have hfun : (fun x : ℝ => Real.exp (-(1 / 2 : ℝ) * x ^ 2)) = stdGaussKernel := by
    funext x
    simp only [stdGaussKernel]
    ring_nf
  rw [hfun] at h
  rw [h, show Real.pi / (1 / 2) = 2 * Real.pi by ring]

lemma integral_Iic_neg_stdGaussKernel (x : ℝ) :
    (∫ t in Iic (-x), stdGaussKernel t) = ∫ t in Ioi x, stdGaussKernel t := by
  have h := integral_comp_neg_Iic (-x) stdGaussKernel
  simp only [stdGaussKernel_neg, neg_neg] at h
  exact h

lemma integral_Iic_add_Ioi_stdGaussKernel (x : ℝ) :
    (∫ t in Iic x, stdGaussKernel t) + (∫ t in Ioi x, stdGaussKernel t) =
      Real.sqrt (2 * Real.pi) := by
  have h := integral_add_compl (measurableSet_Iic (a := x))
    integrable_stdGaussKernel
  rw [compl_Iic] at h
  rw [h, integral_stdGaussKernel]

lemma sqrt_two_pi_pos : 0 < Real.sqrt (2 * Real.pi) :=
  Real.sqrt_pos.mpr (by positivity)

/-- The reflection identity of the standard normal CDF. -/
lemma normCdf_add_neg (x : ℝ) : normCdf x + normCdf (-x) = 1 := by
  unfold normCdf
  rw [integral_Iic_neg_stdGaussKernel, div_add_div_same,
    integral_Iic_add_Ioi_stdGaussKernel, div_self (ne_of_gt sqrt_two_pi_pos)]

/-- Exact put-call parity of the normal-regime per-unit prices, for any
shared spot, strike, rate, volatility and expiry. -/
lemma callPrice_sub_putPrice (S K r σ τ : ℝ) :
    (callPrice S K r σ τ).pv - (putPrice S K r σ τ).pv =
      S - K * Real.exp (-r * τ) := by
  simp only [callPrice, putPrice]
  have h1 := normCdf_add_neg (bsD1 S K r σ τ)
  have h2 := normCdf_add_neg (bsD2 S K r σ τ)
  linear_combination S * h1 - K * Real.exp (-r * τ) * h2

/-- C1: for every option with time_to_expiry <= 0 (valid strike and spot),
`price` returns the expired-branch values: for a Call pv = max(S-K, 0),
delta = 1 if S > K else 0; for a Put pv = max(K-S, 0), delta = -1 if
in-the-money else 0; gamma = vega = theta = 0 in both cases — no division
by the time to expiry occurs. -/
theorem C1_expired_branch (ot : OptionType) (K τ : ℝ) (a : String)
    (m : MarketData) (hτ : τ ≤ 0) (hK : 0 < K) (hS : 0 < m.spot_price) :
    price ⟨ot, K, τ, a⟩ m = .ok (match ot with
      | .Call => ⟨max (m.spot_price - K) 0,
          if K < m.spot_price then 1 else 0, 0, 0, 0⟩
      | .Put => ⟨max (K - m.spot_price) 0,
          if m.spot_price < K then -1 else 0, 0, 0, 0⟩) := by
  cases ot <;>
    · unfold price
      rw [if_neg (not_le.mpr hK), if_neg (not_le.mpr hS), if_pos hτ]

/-- C1 witness: time_to_expiry = 0, spot = 150, strike = 100 for a Call
yields pv = 50, delta = 1, gamma = vega = theta = 0. -/
theorem C1_expired_branch_witness :
    price ⟨OptionType.Call, 100, 0, "X"⟩ ⟨"X", 150, 5 / 100, 2 / 10⟩ =
      .ok ⟨50, 1, 0, 0, 0⟩ := by
  have h := C1_expired_branch OptionType.Call 100 0 "X"
    ⟨"X", 150, 5 / 100, 2 / 10⟩ (le_refl 0) (by norm_num) (by norm_num)
  rw [h]
  norm_num

/-- C2: put-call parity — for every strike, expiry and market-data record in
the non-degenerate regime, the Call pv minus the Put pv returned by `price`
equals S - K * exp(-r * tau), here exactly (hence within any tolerance). -/
theorem C2_put_call_parity (K τ : ℝ) (a : String) (m : MarketData)
    (hK : 0 < K) (hS : 0 < m.spot_price) (hτ : 0 < τ) :
    ∃ c p : PriceResult,
      price ⟨OptionType.Call, K, τ, a⟩ m = .ok c ∧
      price ⟨OptionType.Put, K, τ, a⟩ m = .ok p ∧
      c.pv - p.pv = m.spot_price - K * Real.exp (-m.risk_free_rate * τ) := by
  refine ⟨callPrice m.spot_price K m.risk_free_rate (effVol m.volatility) τ,
    putPrice m.spot_price K m.risk_free_rate (effVol m.volatility) τ, ?_, ?_, ?_⟩
  · unfold price
    rw [if_neg (not_le.mpr hK), if_neg (not_le.mpr hS), if_neg (not_le.mpr hτ)]
  · unfold price
    rw [if_neg (not_le.mpr hK), if_neg (not_le.mpr hS), if_neg (not_le.mpr hτ)]
  · exact callPrice_sub_putPrice _ _ _ _ _

/-- C2 witness: parity instantiated at strike 100, expiry 1, spot 100,
rate 0.05, volatility 0.2. -/
theorem C2_put_call_parity_witness :
    ∃ c p : PriceResult,
      price ⟨OptionType.Call, 100, 1, "X"⟩ ⟨"X", 100, 5 / 100, 2 / 10⟩ = .ok c ∧
      price ⟨OptionType.Put, 100, 1, "X"⟩ ⟨"X", 100, 5 / 100, 2 / 10⟩ = .ok p ∧
      c.pv - p.pv = 100 - 100 * Real.exp (-(5 / 100) * 1) :=
  C2_put_call_parity 100 1 "X" ⟨"X", 100, 5 / 100, 2 / 10⟩
    (by norm_num) (by norm_num) (by norm_num)

/-- The pricer succeeds on every structurally valid instrument and
market-data record (positive strike and spot). -/
lemma price_ok (o : EuropeanOption) (m : MarketData)
    (hK : 0 < o.strike) (hS : 0 < m.spot_price) :
    ∃ pr, price o m = .ok pr := by
  unfold price
  rw [if_neg (not_le.mpr hK), if_neg (not_le.mpr hS)]
  by_cases hτ : o.time_to_expiry ≤ 0
  · rw [if_pos hτ]
    cases o.option_type <;> exact ⟨_, rfl⟩
  · rw [if_neg hτ]
    cases o.option_type <;> exact ⟨_, rfl⟩

lemma aggregate_nil (store : MarketDataStore) :
    aggregate store [] = .ok ⟨⟨0, 0, 0, 0, 0⟩, []⟩ := rfl

/-- Closed form of aggregation over a single position whose lookup and
pricing succeed. -/
lemma aggregate_singleton (store : MarketDataStore) (i : EuropeanOption)
    (q : ℤ) (md : MarketData) (pr : PriceResult)
    (hmd : store i.underlying_asset_id = some md)
    (hpr : price i md = .ok pr) :
    aggregate store [⟨i, q⟩] =
      .ok ⟨⟨(q : ℝ) * pr.pv, (q : ℝ) * pr.delta, (q : ℝ) * pr.gamma,
            (q : ℝ) * pr.vega, (q : ℝ) * pr.theta⟩,
           [(i.underlying_asset_id, (q : ℝ) * pr.delta)]⟩ := by
  simp only [aggregate, hmd, hpr, add_zero]

/-- Inversion of aggregation over a single position: success determines the
market data, the per-unit price and the output. -/
lemma aggregate_singleton_ok (store : MarketDataStore) (i : EuropeanOption)
    (q : ℤ) (out : AggOut) (h : aggregate store [⟨i, q⟩] = .ok out) :
    ∃ md pr, store i.underlying_asset_id = some md ∧ price i md = .ok pr ∧
      out = ⟨⟨(q : ℝ) * pr.pv, (q : ℝ) * pr.delta, (q : ℝ) * pr.gamma,
              (q : ℝ) * pr.vega, (q : ℝ) * pr.theta⟩,
             [(i.underlying_asset_id, (q : ℝ) * pr.delta)]⟩ := by
  cases hmd : store i.underlying_asset_id with
  | none =>
    simp only [aggregate, hmd] at h
    exact absurd h (by simp)
  | some md =>
    cases hpr : price i md with
    | error e =>
      simp only [aggregate, hmd, hpr] at h
      exact absurd h (by simp)
    | ok pr =>
      refine ⟨md, pr, rfl, hpr, ?_⟩
      rw [aggregate_singleton store i q md pr hmd hpr] at h
      exact (Except.ok.inj h).symm

/-- C4: aggregating a single position with quantity 2n yields exactly twice
the total_pv, total_delta, total_gamma, total_vega and total_theta of
aggregating it with quantity n. -/
theorem C4_quantity_linearity (store : MarketDataStore) (i : EuropeanOption)
    (n : ℤ) (out : AggOut) (h : aggregate store [⟨i, n⟩] = .ok out) :
    ∃ out2, aggregate store [⟨i, 2 * n⟩] = .ok out2 ∧
      out2.totals.pv = 2 * out.totals.pv ∧
      out2.totals.delta = 2 * out.totals.delta ∧
      out2.totals.gamma = 2 * out.totals.gamma ∧
      out2.totals.vega = 2 * out.totals.vega ∧
      out2.totals.theta = 2 * out.totals.theta := by
  obtain ⟨md, pr, hmd, hpr, rfl⟩ := aggregate_singleton_ok store i n out h
  refine ⟨_, aggregate_singleton store i (2 * n) md pr hmd hpr, ?_, ?_, ?_, ?_, ?_⟩ <;>
    · push_cast
      ring

/-- C4 witness: linearity instantiated on an expired Call position with
quantity 3 against a one-asset store. -/
theorem C4_quantity_linearity_witness :
    ∃ out2,
      aggregate (fun a => if a = "X" then some ⟨"X", 150, 5 / 100, 2 / 10⟩ else none)
          [⟨⟨OptionType.Call, 100, 0, "X"⟩, 2 * 3⟩] = .ok out2 ∧
      out2.totals.pv = 2 * (⟨⟨3 * 50, 3 * 1, 3 * 0, 3 * 0, 3 * 0⟩,
          [("X", 3 * 1)]⟩ : AggOut).totals.pv ∧
      out2.totals.delta = 2 * 3 ∧ out2.totals.gamma = 2 * 0 ∧
      out2.totals.vega = 2 * 0 ∧ out2.totals.theta = 2 * 0 := by
  have hpr : price ⟨OptionType.Call, 100, 0, "X"⟩ ⟨"X", 150, 5 / 100, 2 / 10⟩ =
      .ok ⟨50, 1, 0, 0, 0⟩ := by
    unfold price
    norm_num [max_def]
  have h := aggregate_singleton
    (fun a => if a = "X" then some ⟨"X", 150, 5 / 100, 2 / 10⟩ else none)
    ⟨OptionType.Call, 100, 0, "X"⟩ 3 ⟨"X", 150, 5 / 100, 2 / 10⟩
    ⟨50, 1, 0, 0, 0⟩ (by simp) hpr
  have h2 := C4_quantity_linearity _ _ 3 _ h
  simpa using h2

/-- C5: a portfolio of positions {instrument, +1} and {instrument, -1} on
the same instrument, with its market data present (and valid), succeeds and
yields total_pv = 0 and total_delta = total_gamma = total_vega =
total_theta = 0. -/
theorem C5_long_short_symmetry (i : EuropeanOption) (md : MarketData)
    (store : MarketDataStore) (hmd : store i.underlying_asset_id = some md)
    (hK : 0 < i.strike) (hS : 0 < md.spot_price) :
    ∃ r, calculate_portfolio_risk [⟨i, 1⟩, ⟨i, -1⟩] store = .ok r ∧
      r.total_pv = 0 ∧ r.total_delta = 0 ∧ r.total_gamma = 0 ∧
      r.total_vega = 0 ∧ r.total_theta = 0 := by
  obtain ⟨pr, hpr⟩ := price_ok i md hK hS
  have hagg : aggregate store [⟨i, 1⟩, ⟨i, -1⟩] =
      .ok ⟨⟨0, 0, 0, 0, 0⟩,
           [(i.underlying_asset_id, (1 : ℝ) * pr.delta),
            (i.underlying_asset_id, (-1 : ℝ) * pr.delta)]⟩ := by
    simp only [aggregate, hmd, hpr]
    norm_num
  exact ⟨_, by rw [calculate_portfolio_risk, hagg], rfl, rfl, rfl, rfl, rfl⟩

/-- C5 witness: long/short symmetry instantiated on an expired Call against
a one-asset store. -/
theorem C5_long_short_symmetry_witness :
    ∃ r, calculate_portfolio_risk
        [⟨⟨OptionType.Call, 100, 0, "X"⟩, 1⟩, ⟨⟨OptionType.Call, 100, 0, "X"⟩, -1⟩]
        (fun a => if a = "X" then some ⟨"X", 150, 5 / 100, 2 / 10⟩ else none) = .ok r ∧
      r.total_pv = 0 ∧ r.total_delta = 0 ∧ r.total_gamma = 0 ∧
      r.total_vega = 0 ∧ r.total_theta = 0 :=
  C5_long_short_symmetry ⟨OptionType.Call, 100, 0, "X"⟩
    ⟨"X", 150, 5 / 100, 2 / 10⟩ _ (by simp) (by norm_num) (by norm_num)

/-- The VaR estimator returns zero on an empty contribution list. -/
lemma estimateVaR_nil (store : MarketDataStore) :
    estimateVaR store [] = 0 := by
  simp [estimateVaR]

/-- The engine maps the empty portfolio to the all-zero result, for every
market-data store. -/
lemma calculate_portfolio_risk_nil (store : MarketDataStore) :
    calculate_portfolio_risk [] store = .ok ⟨0, 0, 0, 0, 0, 0⟩ := by
  simp only [calculate_portfolio_risk, aggregate_nil, estimateVaR_nil]

/-- C7: for the empty portfolio, calculate_portfolio_risk succeeds and
returns a RiskResult whose six fields are all zero, including
value_at_risk_95 = 0, for every market-data store. -/
theorem C7_empty_portfolio (store : MarketDataStore) :
    calculate_portfolio_risk [] store = .ok ⟨0, 0, 0, 0, 0, 0⟩ :=
  calculate_portfolio_risk_nil store

/-- C8: the value_at_risk_95 field of every successfully computed result is
nonnegative, regardless of the portfolio's net sign. -/
theorem C8_var_nonneg (p : Portfolio) (store : MarketDataStore)
    (r : RiskResult) (h : calculate_portfolio_risk p store = .ok r) :
    0 ≤ r.value_at_risk_95 := by
  rw [calculate_portfolio_risk] at h
  cases hagg : aggregate store p with
  | error e => rw [hagg] at h; exact absurd h (by simp)
  | ok out =>
    rw [hagg] at h
    have hr : r = ⟨out.totals.pv, out.totals.delta, out.totals.gamma,
        out.totals.vega, out.totals.theta, estimateVaR store out.deltaContribs⟩ :=
      (Except.ok.inj h).symm
    rw [hr]
    show 0 ≤ estimateVaR store out.deltaContribs
    unfold estimateVaR
    positivity

/-- C8 witness: nonnegativity of VaR instantiated on the empty portfolio
and the empty store. -/
theorem C8_var_nonneg_witness :
    0 ≤ (⟨0, 0, 0, 0, 0, 0⟩ : RiskResult).value_at_risk_95 :=
  C8_var_nonneg [] (fun _ => none) ⟨0, 0, 0, 0, 0, 0⟩
    (calculate_portfolio_risk_nil _)

/-- On a structurally valid portfolio (positive strikes, positive spots in
the store), a position whose asset id is absent from the store forces
aggregation to abort with `MissingMarketDataError` carrying the asset id of
the first such position. -/
lemma aggregate_missing (store : MarketDataStore)
    (hS : ∀ a md, store a = some md → 0 < md.spot_price) :
    ∀ p : Portfolio, (∀ pos ∈ p, 0 < pos.instrument.strike) →
      (∃ pos ∈ p, store pos.instrument.underlying_asset_id = none) →
      ∃ a, store a = none ∧
        (∃ pos ∈ p, pos.instrument.underlying_asset_id = a) ∧
        aggregate store p = .error (.MissingMarketDataError a)
  | [] => by
    intro _ hm
    simp at hm
  | pos :: rest => by
    intro hK hm
    cases hmd : store pos.instrument.underlying_asset_id with
    | none =>
      refine ⟨pos.instrument.underlying_asset_id, hmd,
        ⟨pos, List.mem_cons_self pos rest, rfl⟩, ?_⟩
      simp only [aggregate, hmd]
    | some md =>
      obtain ⟨pr, hpr⟩ := price_ok pos.instrument md
        (hK pos (List.mem_cons_self pos rest)) (hS _ _ hmd)
      have hmrest : ∃ q ∈ rest, store q.instrument.underlying_asset_id = none := by
        obtain ⟨q, hq, hqnone⟩ := hm
        rcases List.mem_cons.mp hq with h | h
        · rw [h, hmd] at hqnone
          exact absurd hqnone (by simp)
        · exact ⟨q, h, hqnone⟩
      obtain ⟨a, hanone, ⟨q, hq, hqa⟩, herr⟩ := aggregate_missing store hS rest
        (fun q hq => hK q (List.mem_cons_of_mem pos hq)) hmrest
      refine ⟨a, hanone, ⟨q, List.mem_cons_of_mem pos hq, hqa⟩, ?_⟩
      simp only [aggregate, hmd, hpr, herr]

/-- C6: every portfolio containing a position whose underlying asset id has
no entry in the market-data store makes calculate_portfolio_risk fail with
`MissingMarketDataError` carrying such an asset id — the error of the
aggregator passes through the engine unchanged and no RiskResult is
produced. -/
theorem C6_missing_market_data (p : Portfolio) (store : MarketDataStore)
    (hK : ∀ pos ∈ p, 0 < pos.instrument.strike)
    (hS : ∀ a md, store a = some md → 0 < md.spot_price)
    (hm : ∃ pos ∈ p, store pos.instrument.underlying_asset_id = none) :
    ∃ a, store a = none ∧
      (∃ pos ∈ p, pos.instrument.underlying_asset_id = a) ∧
      calculate_portfolio_risk p store = .error (.MissingMarketDataError a) := by
  obtain ⟨a, h1, h2, herr⟩ := aggregate_missing store hS p hK hm
  exact ⟨a, h1, h2, by simp only [calculate_portfolio_risk, herr]⟩

/-- C6 witness: one Call position on asset "AAPL" against the empty store
fails with `MissingMarketDataError`. -/
theorem C6_missing_market_data_witness :
    ∃ a, (fun _ : String => (none : Option MarketData)) a = none ∧
      (∃ pos ∈ [(⟨⟨OptionType.Call, 100, 1, "AAPL"⟩, 1⟩ : PortfolioPosition)],
        pos.instrument.underlying_asset_id = a) ∧
      calculate_portfolio_risk [⟨⟨OptionType.Call, 100, 1, "AAPL"⟩, 1⟩]
        (fun _ => none) = .error (.MissingMarketDataError a) :=
  C6_missing_market_data [⟨⟨OptionType.Call, 100, 1, "AAPL"⟩, 1⟩] (fun _ => none)
    (by
      intro pos hpos
      rw [List.mem_singleton] at hpos
      subst hpos
      norm_num)
    (by intro a md h; exact absurd h (by simp))
    ⟨⟨⟨OptionType.Call, 100, 1, "AAPL"⟩, 1⟩, List.mem_singleton.mpr rfl, rfl⟩

/-- Aggregation success records, position by position in order, exactly the
quantity-scaled per-unit delta of each position together with its asset id. -/
lemma aggregate_contribs (store : MarketDataStore) :
    ∀ (p : Portfolio) (out : AggOut), aggregate store p = .ok out →
      List.Forall₂ (fun (pos : PortfolioPosition) (c : String × ℝ) =>
          ∃ md pr, store pos.instrument.underlying_asset_id = some md ∧
            price pos.instrument md = .ok pr ∧
            c = (pos.instrument.underlying_asset_id, (pos.quantity : ℝ) * pr.delta))
        p out.deltaContribs
  | [], out => by
    intro h
    rw [aggregate_nil] at h
    rw [← Except.ok.inj h]
    exact List.Forall₂.nil
  | pos :: rest, out => by
    intro h
    cases hmd : store pos.instrument.underlying_asset_id with
    | none =>
      simp only [aggregate, hmd] at h
      exact absurd h (by simp)
    | some md =>
      cases hpr : price pos.instrument md with
      | error e =>
        simp only [aggregate, hmd, hpr] at h
        exact absurd h (by simp)
      | ok pr =>
        cases hrest : aggregate store rest with
        | error e =>
          simp only [aggregate, hmd, hpr, hrest] at h
          exact absurd h (by simp)
        | ok out1 =>
          simp only [aggregate, hmd, hpr, hrest] at h
          rw [← Except.ok.inj h]
          exact List.Forall₂.cons ⟨md, pr, hmd, hpr, rfl⟩
            (aggregate_contribs store rest out1 hrest)

/-- C3: the value_at_risk_95 of every successful calculation equals 1.645
times the square root of the sum, over the distinct assets of the
portfolio, of the squared per-asset standard deviations (absolute
dollar-delta — the sum of the quantity-scaled position deltas on the asset
times its spot price — times daily volatility), where the recorded delta
contributions are exactly the quantity-scaled per-unit deltas per position. -/
theorem C3_var_formula (p : Portfolio) (store : MarketDataStore)
    (r : RiskResult) (h : calculate_portfolio_risk p store = .ok r) :
    ∃ out, aggregate store p = .ok out ∧
      List.Forall₂ (fun (pos : PortfolioPosition) (c : String × ℝ) =>
          ∃ md pr, store pos.instrument.underlying_asset_id = some md ∧
            price pos.instrument md = .ok pr ∧
            c = (pos.instrument.underlying_asset_id, (pos.quantity : ℝ) * pr.delta))
        p out.deltaContribs ∧
      r.value_at_risk_95 = 1.645 * Real.sqrt
        ((((out.deltaContribs.map Prod.fst).dedup).map
          (fun a => assetStd store out.deltaContribs a ^ 2)).sum) := by
  cases hagg : aggregate store p with
  | error e =>
    simp only [calculate_portfolio_risk, hagg] at h
    exact absurd h (by simp)
  | ok out =>
    simp only [calculate_portfolio_risk, hagg] at h
    refine ⟨out, rfl, aggregate_contribs store p out hagg, ?_⟩
    rw [← Except.ok.inj h]
    rfl

/-- C3 witness: the VaR formula instantiated on a single expired Call
position (quantity 2) against a one-asset store with zero volatility, where
the computed VaR is 0. -/
theorem C3_var_formula_witness :
    ∃ out, aggregate (fun a => if a = "X" then some ⟨"X", 150, 5 / 100, 0⟩ else none)
        [⟨⟨OptionType.Call, 100, 0, "X"⟩, 2⟩] = .ok out ∧
      List.Forall₂ (fun (pos : PortfolioPosition) (c : String × ℝ) =>
          ∃ md pr,
            (fun a => if a = "X" then
                some (⟨"X", 150, 5 / 100, 0⟩ : MarketData) else none)
              pos.instrument.underlying_asset_id = some md ∧
            price pos.instrument md = .ok pr ∧
            c = (pos.instrument.underlying_asset_id, (pos.quantity : ℝ) * pr.delta))
        [⟨⟨OptionType.Call, 100, 0, "X"⟩, 2⟩] out.deltaContribs ∧
      (⟨100, 2, 0, 0, 0, 0⟩ : RiskResult).value_at_risk_95 = 1.645 * Real.sqrt
        ((((out.deltaContribs.map Prod.fst).dedup).map
          (fun a => assetStd
            (fun a => if a = "X" then some ⟨"X", 150, 5 / 100, 0⟩ else none)
            out.deltaContribs a ^ 2)).sum) := by
  apply C3_var_formula
  have hpr : price ⟨OptionType.Call, 100, 0, "X"⟩ ⟨"X", 150, 5 / 100, 0⟩ =
      .ok ⟨50, 1, 0, 0, 0⟩ := by
    unfold price
    norm_num [max_def]
  have hagg := aggregate_singleton
    (fun a => if a = "X" then some ⟨"X", 150, 5 / 100, 0⟩ else none)
    ⟨OptionType.Call, 100, 0, "X"⟩ 2 ⟨"X", 150, 5 / 100, 0⟩
    ⟨50, 1, 0, 0, 0⟩ (by simp) hpr
  simp only [calculate_portfolio_risk, hagg]
  have hvar : estimateVaR
      (fun a => if a = "X" then some ⟨"X", 150, 5 / 100, 0⟩ else none)
      [("X", ((2 : ℤ) : ℝ) * 1)] = 0 := by
    simp [estimateVaR, assetStd, dailyVol]
  rw [hvar]
  norm_num

end QuantRiskEngine

namespace PythonApi

open QuantRiskEngine

/-- C9: the spec (and the handler's own lowercasing on line 45 of
`python_api/app.py`) intends case-insensitive acceptance of the option type
field, but the pydantic `Literal` validation on line 10 accepts only the
exact lowercase strings: the mixed-case inputs "Call" and "PUT" are
rejected at validation even though the handler mapping would translate them
to the corresponding OptionType, while exactly "call" and "put" pass. -/
theorem C9_mixed_case_rejected_by_validation :
    requestValid ⟨[⟨"Call", 100, 1, "X", 1⟩], []⟩ = false ∧
    typeFieldValid "Call" = false ∧
    typeFieldValid "PUT" = false ∧
    parseOptionType "Call" = OptionType.Call ∧
    parseOptionType "PUT" = OptionType.Put ∧
    typeFieldValid "call" = true ∧
    typeFieldValid "put" = true := by
  refine ⟨?_, ?_, ?_, ?_, ?_, ?_, ?_⟩ <;> decide

/-- C10: every engine error raised inside the handler's try block — of
whatever kind — is surfaced as the same HTTP 500 outcome whose detail is
the error's string message; no error kind receives a distinct status code. -/
theorem C10_uniform_http_500 (req : CalculateRequest) (e : RiskError)
    (h : calculate_portfolio_risk (buildPortfolio req.portfolio)
        (buildStore req.market_data) = .error e) :
    calculate_risk req = .httpError 500 (errMessage e) := by
  rw [calculate_risk, h]

/-- C10 witness: a request for asset "AAPL" with empty market data is
answered with HTTP 500 carrying the missing-market-data message. -/
theorem C10_uniform_http_500_witness :
    calculate_risk ⟨[⟨"call", 100, 1, "AAPL", 1⟩], []⟩ =
      .httpError 500 (errMessage (.MissingMarketDataError "AAPL")) := by
  apply C10_uniform_http_500
  have hstore : buildStore ([] : List (String × MarketDataItem)) = fun _ => none := by
    funext a
    simp [buildStore]
  simp only [buildPortfolio, List.map_cons, List.map_nil, hstore,
    calculate_portfolio_risk, aggregate]

end PythonApi
